import Mathlib

/-!
Verification of the `ecnu-power-usage` client core against its specification.

Shallow embedding conventions:
* JavaScript `Date` values are modelled as integers counting seconds since the
  epoch; `date-fns` `parseISO` is an uninterpreted parameter
  `parse : String → ℤ`, and `differenceInSeconds a b` is exactly `a - b`
  (the embedding works at second granularity, which is the granularity the
  CSV interchange format uses).
* JavaScript numbers are modelled as rationals `ℚ`; the only division the
  code performs is guarded by a strict positivity test, so no `NaN`/`Inf`
  value is ever produced and the rational model is exact on that path.
* Fallible invocations are modelled as `Except` values.
-/

namespace EcnuPower

/-- `ElectricityRecord` from `src/tauri/src/utils/records.ts`:
timestamp, remaining kwh, diff versus previous record, consumption speed. -/
structure ElectricityRecord where
  timestamp : ℤ
  kwh : ℚ
  diff : ℚ
  speed : ℚ
deriving DecidableEq, Repr, Inhabited

/-- `RawRecord` from `records.ts`: an ISO timestamp string paired with a kwh
reading. -/
abbrev RawRecord := String × ℚ

/-- Default raw record used for (always in-range) list indexing. -/
def dRaw : RawRecord := ("", 0)

/-- Default derived record used for (always in-range) list indexing. -/
def dRec : ElectricityRecord := ⟨0, 0, 0, 0⟩

/-- `date-fns` `differenceInSeconds` on second-granularity instants. -/
def differenceInSeconds (a b : ℤ) : ℤ := a - b

/-- Index of the previous neighbour used by the speed computation:
`records[i > 0 ? i - 1 : 0]` in `records.ts`. -/
def prevIdx (i : ℕ) : ℕ := if 0 < i then i - 1 else 0

/-- Index of the next neighbour used by the speed computation:
`records[i < records.length - 1 ? i + 1 : records.length - 1]`. -/
def nextIdx (n i : ℕ) : ℕ := if i < n - 1 then i + 1 else n - 1

/-- One iteration of the loop body of `fromRawRecords` in `records.ts`,
producing the derived record at index `i`.  `parse` stands for
`parseISO`. -/
def mkRecord (parse : String → ℤ) (records : List RawRecord) (i : ℕ) :
    ElectricityRecord :=
  let n := records.length
  let kwh := (records.getD i dRaw).2
  let timestamp := parse (records.getD i dRaw).1
  let diff : ℚ := if 0 < i then kwh - (records.getD (i - 1) dRaw).2 else 0
  let prev := records.getD (prevIdx i) dRaw
  let next := records.getD (nextIdx n i) dRaw
  let timestampPrev := parse (records.getD (prevIdx i) dRaw).1
  let timestampNext := parse (records.getD (nextIdx n i) dRaw).1
  let hoursDiff : ℚ := (|differenceInSeconds timestampNext timestampPrev| : ℚ) / 3600
  let kwhDiff : ℚ := max (prev.2 - next.2) 0
  let speed : ℚ := if 0 < hoursDiff then kwhDiff / hoursDiff else 0
  ⟨timestamp, kwh, diff, speed⟩

/-- `fromRawRecords` from `records.ts`: derives `diff` and `speed` for every
index of the input sequence. -/
def fromRawRecords (parse : String → ℤ) (records : List RawRecord) :
    List ElectricityRecord :=
  (List.range records.length).map (mkRecord parse records)

/-- The one-sided speed formula obtained from the loop body when the two
neighbours are a consecutive pair `a`, `b` of the sequence. -/
def pairSpeed (parse : String → ℤ) (a b : RawRecord) : ℚ :=
  let hoursDiff : ℚ := (|differenceInSeconds (parse b.1) (parse a.1)| : ℚ) / 3600
  if 0 < hoursDiff then max (a.2 - b.2) 0 / hoursDiff else 0

/-- The hour span between the two neighbour samples the speed computation at
index `i` divides by. -/
def speedSpanHours (parse : String → ℤ) (records : List RawRecord) (i : ℕ) : ℚ :=
  let timestampPrev := parse (records.getD (prevIdx i) dRaw).1
  let timestampNext := parse (records.getD (nextIdx records.length i) dRaw).1
  (|differenceInSeconds timestampNext timestampPrev| : ℚ) / 3600

/-- The centred-difference speed formula exactly as the specification words
it: `speed[i] = |kwh[i-1] - kwh[i+1]| / hours_between(ts[i-1], ts[i+1])`.
Stated for comparison with the implementation. -/
def specSpeedAbs (parse : String → ℤ) (records : List RawRecord) (i : ℕ) : ℚ :=
  let hours : ℚ :=
    (|parse (records.getD (i + 1) dRaw).1 - parse (records.getD (i - 1) dRaw).1| : ℚ) / 3600
  |(records.getD (i - 1) dRaw).2 - (records.getD (i + 1) dRaw).2| / hours

-- Helper lemmas about `fromRawRecords`.

theorem fromRawRecords_length (parse : String → ℤ) (records : List RawRecord) :
    (fromRawRecords parse records).length = records.length := by
  simp [fromRawRecords]

theorem fromRawRecords_getD (parse : String → ℤ) (records : List RawRecord)
    (i : ℕ) (h : i < records.length) :
    (fromRawRecords parse records).getD i dRec = mkRecord parse records i := by
  unfold fromRawRecords
  rw [List.getD_eq_getElem?_getD, List.getElem?_map, List.getElem?_range h]
  rfl

-- CSV parsing (`parseCsvData` in `records.ts`).

/-- JS `String.prototype.split` with a one-character separator, modelled on
the character list of the string: every separator occurrence splits, and
empty fields are kept (`"a,".split(",")` gives `["a", ""]`, `"".split(x)`
gives `[""]`). -/
def jsSplit (sep : Char) : List Char → List (List Char)
  | [] => [[]]
  | c :: rest =>
    match jsSplit sep rest with
    | [] => [[]]
    | f :: fs => if c = sep then [] :: f :: fs else (c :: f) :: fs

/-- `jsSplit` lifted back to `String`. -/
def jsSplitStr (sep : Char) (s : String) : List String :=
  (jsSplit sep s.data).map fun l => ⟨l⟩

/-- JS `String.prototype.trim`: drop whitespace from both ends. -/
def jsTrim (s : String) : String :=
  ⟨((s.data.dropWhile Char.isWhitespace).reverse.dropWhile
      Char.isWhitespace).reverse⟩

/-- The comma-separated fields of one CSV line; `lines[i].split(",")`. -/
def lineFields (line : String) : List String := jsSplitStr ',' line

/-- The body of the `parseCsvData` loop for one line: destructure the first
two comma-separated fields, skip the line (`continue`) when either is empty
or missing, otherwise keep `[timeStr, parseFloat kwhStr]`.  `parseFloat` is
the uninterpreted parameter `pf`. -/
def parseLine (pf : String → ℚ) (line : String) : Option RawRecord :=
  let timeStr := (lineFields line).getD 0 ""
  let kwhStr := (lineFields line).getD 1 ""
  if timeStr = "" ∨ kwhStr = "" then none
  else some (timeStr, pf kwhStr)

/-- `csvContent.trim().split("\n")`. -/
def csvLines (csvContent : String) : List String :=
  jsSplitStr '\n' (jsTrim csvContent)

/-- `parseCsvData` from `records.ts`: split the trimmed content into lines,
keep every line with both fields present, and derive metrics. -/
def parseCsvData (parse : String → ℤ) (pf : String → ℚ) (csvContent : String) :
    List ElectricityRecord :=
  fromRawRecords parse ((csvLines csvContent).filterMap (parseLine pf))

/-- Specification-side characterisation of the lines `parseCsvData` keeps:
both of the first two comma-separated fields are non-empty. -/
def goodLine (line : String) : Bool :=
  !((lineFields line).getD 0 "" == "") && !((lineFields line).getD 1 "" == "")

-- Health monitoring (`src/tauri/src/utils/health.ts` and `App.vue`).

/-- `HealthKind` from `health.ts`, constructors in source order.  Note the
declared union has six members; it carries no `TlsError` member. -/
inductive HealthKind where
  | NoNet | ServerDown | NotLogin | NoRoom | Ok | Unknown
deriving DecidableEq, Repr, Fintype

/-- The string literals of the `HealthKind` union type in `health.ts`, in
source order. -/
def healthKindValues : List String :=
  ["NoNet", "ServerDown", "NotLogin", "NoRoom", "Ok", "Unknown"]

/-- `HealthStatus` from `health.ts`. -/
structure HealthStatus where
  kind : HealthKind
  message : Option String
deriving DecidableEq, Repr

/-- `healthCheck` from `health.ts`, as a function of the outcome of
`invoke("health_check")`; a raised error is modelled by its stringified
form (`String(error)`). -/
def healthCheck (outcome : Except String HealthKind) : HealthStatus :=
  match outcome with
  | .ok kind => ⟨kind, none⟩
  | .error error => ⟨.Unknown, some error⟩

/-- The `notifyConfig` lookup table of `App.vue` (title, message per kind).
The source object has no `Ok` entry, so the lookup misses for `Ok`; the
source also carries a `TlsError` entry that is unreachable under the
declared `HealthKind` union and hence not representable here. -/
def notifyConfig (kind : HealthKind) : Option (String × String) :=
  match kind with
  | .NoNet => some ("网络已断开", "请检查网络设置。")
  | .ServerDown => some ("服务器连接失败", "后端服务暂时无法访问。")
  | .NotLogin => some ("登录已过期", "请重新登录以继续。")
  | .NoRoom => some ("房间未绑定", "请先配置您的宿舍房间号。")
  | .Ok => none
  | .Unknown => some ("系统错误", "发生未知异常。")

/-- Observable side effects of one `performHealthCheck` call in `App.vue`. -/
inductive Effect where
  | notify (title message : String)
  | refreshRecords
  | refreshArchives
  | refreshSelectedArchive
deriving DecidableEq, Repr

/-- Whether an effect is a user-facing notification. -/
def Effect.isNotify : Effect → Bool
  | .notify _ _ => true
  | .refreshRecords => false
  | .refreshArchives => false
  | .refreshSelectedArchive => false

/-- The initial stored status in `App.vue`:
`ref<HealthStatus>({ kind: "Ok", message: null })`. -/
def initialHealth : HealthStatus := ⟨.Ok, none⟩

/-- `performHealthCheck` from `App.vue` as a pure step: from the stored
status `rawStatus` and the probe result `status`, the new stored status and
the list of side effects fired.  Mirrors the source: on a kind change to
`Ok` the three refresh calls run; on a kind change to a non-`Ok` kind one
notification keyed by `notifyConfig[status.kind] || notifyConfig.Unknown`
fires; on a message-only change the status is stored silently. -/
def performHealthCheck (rawStatus status : HealthStatus) :
    HealthStatus × List Effect :=
  if status.kind ≠ rawStatus.kind then
    if status.kind = .Ok then
      (status, [.refreshRecords, .refreshArchives, .refreshSelectedArchive])
    else
      let config := (notifyConfig status.kind).getD
        ((notifyConfig .Unknown).getD ("", ""))
      (status, [.notify config.1 config.2])
  else if status.message ≠ rawStatus.message then
    (status, [])
  else
    (rawStatus, [])

/-- Iterate `performHealthCheck` over a sequence of probe results,
collecting the fired effects in order. -/
def runProbes (state : HealthStatus) : List HealthStatus → HealthStatus × List Effect
  | [] => (state, [])
  | status :: rest =>
    let step := performHealthCheck state status
    let tail := runProbes step.1 rest
    (tail.1, step.2 ++ tail.2)

theorem mkRecord_timestamp (parse : String → ℤ) (records : List RawRecord) (i : ℕ) :
    (mkRecord parse records i).timestamp = parse (records.getD i dRaw).1 := rfl

theorem mkRecord_kwh (parse : String → ℤ) (records : List RawRecord) (i : ℕ) :
    (mkRecord parse records i).kwh = (records.getD i dRaw).2 := rfl

theorem mkRecord_diff (parse : String → ℤ) (records : List RawRecord) (i : ℕ) :
    (mkRecord parse records i).diff
      = if 0 < i then (records.getD i dRaw).2 - (records.getD (i - 1) dRaw).2
        else 0 := rfl

theorem mkRecord_speed (parse : String → ℤ) (records : List RawRecord) (i : ℕ) :
    (mkRecord parse records i).speed
      = if 0 < speedSpanHours parse records i then
          max ((records.getD (prevIdx i) dRaw).2
              - (records.getD (nextIdx records.length i) dRaw).2) 0
            / speedSpanHours parse records i
        else 0 := rfl

theorem speedSpanHours_nonneg (parse : String → ℤ) (records : List RawRecord)
    (i : ℕ) : 0 ≤ speedSpanHours parse records i := by
  unfold speedSpanHours
  positivity

-- Claim theorems.

/-- C4: the derived `diff` is `0` at index `0` and `kwh[i] - kwh[i-1]` at
every later index. -/
theorem diff_previous_sample (parse : String → ℤ) (records : List RawRecord)
    (i : ℕ) (h : i < records.length) :
    (i = 0 → ((fromRawRecords parse records).getD i dRec).diff = 0) ∧
    (0 < i → ((fromRawRecords parse records).getD i dRec).diff
      = (records.getD i dRaw).2 - (records.getD (i - 1) dRaw).2) := by
  rw [fromRawRecords_getD parse records i h, mkRecord_diff]
  constructor
  · intro h0
    simp [h0]
  · intro h0
    simp [h0]

/-- Witness for C4 at the concrete sequence `[("a",5),("b",3)]`, index 1. -/
theorem diff_previous_sample_witness :
    ((fromRawRecords (fun _ => 0) [("a", 5), ("b", 3)]).getD 1 dRec).diff = -2 := by
  have h := (diff_previous_sample (fun _ => 0) [("a", 5), ("b", 3)] 1
    (by decide)).2 (by decide)
  rw [h]
  norm_num [dRaw]

/-- C9: `fromRawRecords` preserves length and order, and the `i`-th output
record carries the parsed `i`-th input timestamp and the unchanged `i`-th
input kwh. -/
theorem fromRawRecords_frame (parse : String → ℤ) (records : List RawRecord) :
    (fromRawRecords parse records).length = records.length ∧
    ∀ i, i < records.length →
      ((fromRawRecords parse records).getD i dRec).timestamp
          = parse (records.getD i dRaw).1 ∧
      ((fromRawRecords parse records).getD i dRec).kwh
          = (records.getD i dRaw).2 := by
  refine ⟨fromRawRecords_length parse records, fun i h => ?_⟩
  rw [fromRawRecords_getD parse records i h, mkRecord_timestamp, mkRecord_kwh]
  exact ⟨rfl, rfl⟩

/-- Witness for C9 at the concrete sequence `[("x",7)]`, index 0. -/
theorem fromRawRecords_frame_witness :
    ((fromRawRecords (fun _ => 42) [("x", 7)]).getD 0 dRec).timestamp = 42 ∧
    ((fromRawRecords (fun _ => 42) [("x", 7)]).getD 0 dRec).kwh = 7 := by
  have h := (fromRawRecords_frame (fun _ => 42) [("x", 7)]).2 0 (by decide)
  exact ⟨by simpa using h.1, by simpa using h.2⟩

/-- C6: when the hour span between the two neighbour samples used by the
speed computation is zero, the guarded division yields `speed[i] = 0`. -/
theorem speed_zero_span (parse : String → ℤ) (records : List RawRecord)
    (i : ℕ) (h : i < records.length)
    (hz : speedSpanHours parse records i = 0) :
    ((fromRawRecords parse records).getD i dRec).speed = 0 := by
  rw [fromRawRecords_getD parse records i h, mkRecord_speed, hz]
  simp

/-- Witness for C6: two records with identical parsed timestamps. -/
theorem speed_zero_span_witness :
    ((fromRawRecords (fun _ => 0) [("a", 5), ("b", 3)]).getD 0 dRec).speed = 0 :=
  speed_zero_span (fun _ => 0) [("a", 5), ("b", 3)] 0 (by decide)
    (by simp [speedSpanHours, prevIdx, nextIdx, differenceInSeconds])

/-- `parseISO` for the three-sample 2-hour-spaced example: `t0 = 0 s`,
`t1 = 7200 s`, `t2 = 14400 s`. -/
def parseC8 : String → ℤ :=
  fun s => if s = "t0" then 0 else if s = "t1" then 7200 else 14400

/-- The three-sample example sequence with kwh `10, 8, 6`. -/
def recordsC8 : List RawRecord := [("t0", 10), ("t1", 8), ("t2", 6)]

/-- C8: on readings `10, 8, 6` spaced 2 hours apart, the derived diffs are
`[0, -2, -2]` and the interior speed at index 1 is `(10 - 6) / 4 = 1`. -/
theorem metrics_concrete_example :
    (fromRawRecords parseC8 recordsC8).map ElectricityRecord.diff = [0, -2, -2] ∧
    ((fromRawRecords parseC8 recordsC8).getD 1 dRec).speed = 1 := by
  constructor
  · norm_num [fromRawRecords, List.range_succ, mkRecord, recordsC8,
      prevIdx, nextIdx, differenceInSeconds, show parseC8 "t0" = 0 from rfl,
      show parseC8 "t1" = 7200 from rfl, show parseC8 "t2" = 14400 from rfl]
  · norm_num [fromRawRecords, List.range_succ, mkRecord, recordsC8,
      prevIdx, nextIdx, differenceInSeconds, show parseC8 "t0" = 0 from rfl,
      show parseC8 "t1" = 7200 from rfl, show parseC8 "t2" = 14400 from rfl]

/-- C7: for a sequence of at least two readings, the speed at index 0 is the
one-sided difference over elements 0 and 1, the speed at the last index is
the one-sided difference over the last two elements, and for a
single-element sequence the speed is 0. -/
theorem speed_one_sided_edges (parse : String → ℤ) (records : List RawRecord) :
    (2 ≤ records.length →
      ((fromRawRecords parse records).getD 0 dRec).speed
        = pairSpeed parse (records.getD 0 dRaw) (records.getD 1 dRaw) ∧
      ((fromRawRecords parse records).getD (records.length - 1) dRec).speed
        = pairSpeed parse (records.getD (records.length - 2) dRaw)
            (records.getD (records.length - 1) dRaw)) ∧
    ∀ r : RawRecord, ((fromRawRecords parse [r]).getD 0 dRec).speed = 0 := by
  constructor
  · intro h2
    constructor
    · have hp : prevIdx 0 = 0 := rfl
      have hn : nextIdx records.length 0 = 1 := by
        unfold nextIdx
        rw [if_pos (by omega)]
      rw [fromRawRecords_getD parse records 0 (by omega), mkRecord_speed]
      simp only [speedSpanHours, differenceInSeconds, pairSpeed, hp, hn]
    · have hp : prevIdx (records.length - 1) = records.length - 2 := by
        unfold prevIdx
        rw [if_pos (by omega)]
        omega
      have hn : nextIdx records.length (records.length - 1)
          = records.length - 1 := by
        unfold nextIdx
        rw [if_neg (by omega)]
      rw [fromRawRecords_getD parse records (records.length - 1) (by omega),
        mkRecord_speed]
      simp only [speedSpanHours, differenceInSeconds, pairSpeed, hp, hn]
  · intro r
    rw [fromRawRecords_getD parse [r] 0 (by simp), mkRecord_speed]
    simp [speedSpanHours, prevIdx, nextIdx, differenceInSeconds]

/-- Witness for C7 on a concrete two-element sequence. -/
theorem speed_one_sided_edges_witness :
    ((fromRawRecords (fun s => if s = "w0" then 0 else 3600)
        [("w0", 2), ("w1", 1)]).getD 0 dRec).speed
      = pairSpeed (fun s => if s = "w0" then 0 else 3600)
          ([("w0", 2), ("w1", 1)].getD 0 dRaw)
          ([("w0", 2), ("w1", 1)].getD 1 dRaw) :=
  ((speed_one_sided_edges (fun s => if s = "w0" then 0 else 3600)
    [("w0", 2), ("w1", 1)]).1 (by decide)).1

/-- `parseISO` for the increasing-kwh counterexample: times 0 s, 3600 s,
7200 s. -/
def parseC1 : String → ℤ :=
  fun s => if s = "u0" then 0 else if s = "u1" then 3600 else 7200

/-- Counterexample sequence for C1: kwh increases (a top-up), so the
directional clamp and the absolute value disagree. -/
def recordsC1 : List RawRecord := [("u0", 0), ("u1", 1), ("u2", 2)]

/-- C1 counterexample: at the interior index 1 of `recordsC1` the
implementation computes `speed = 0` (it clamps `kwh[0] - kwh[2] = -2` at
zero), while the specified absolute-value formula gives `1`; the two
disagree. -/
theorem speed_abs_counterexample :
    ((fromRawRecords parseC1 recordsC1).getD 1 dRec).speed = 0 ∧
    specSpeedAbs parseC1 recordsC1 1 = 1 ∧
    ((fromRawRecords parseC1 recordsC1).getD 1 dRec).speed
      ≠ specSpeedAbs parseC1 recordsC1 1 := by
  have h1 : ((fromRawRecords parseC1 recordsC1).getD 1 dRec).speed = 0 := by
    rw [fromRawRecords_getD parseC1 recordsC1 1 (by decide), mkRecord_speed]
    norm_num [speedSpanHours, differenceInSeconds, prevIdx, nextIdx,
      recordsC1, show parseC1 "u0" = 0 from rfl, show parseC1 "u2" = 7200 from rfl]
  have h2 : specSpeedAbs parseC1 recordsC1 1 = 1 := by
    norm_num [specSpeedAbs, recordsC1, show parseC1 "u0" = 0 from rfl,
      show parseC1 "u2" = 7200 from rfl]
  refine ⟨h1, h2, ?_⟩
  rw [h1, h2]
  norm_num

/-- C1 amended: at every interior index the speed is the *clamped*
directional difference `max(kwh[i-1] - kwh[i+1], 0)` divided by the hours
between the neighbour timestamps (with the zero-span guard agreeing with
rational division by zero). -/
theorem speed_interior_clamped (parse : String → ℤ) (records : List RawRecord)
    (i : ℕ) (h1 : 0 < i) (h2 : i + 1 < records.length) :
    ((fromRawRecords parse records).getD i dRec).speed
      = max ((records.getD (i - 1) dRaw).2 - (records.getD (i + 1) dRaw).2) 0
          / (|((parse (records.getD (i + 1) dRaw).1
              - parse (records.getD (i - 1) dRaw).1 : ℤ) : ℚ)| / 3600) := by
  have hp : prevIdx i = i - 1 := by
    unfold prevIdx
    rw [if_pos h1]
  have hn : nextIdx records.length i = i + 1 := by
    unfold nextIdx
    rw [if_pos (by omega)]
  rw [fromRawRecords_getD parse records i (by omega), mkRecord_speed]
  simp only [speedSpanHours, differenceInSeconds, hp, hn]
  by_cases h : 0 < (|((parse (records.getD (i + 1) dRaw).1
      - parse (records.getD (i - 1) dRaw).1 : ℤ) : ℚ)| / 3600)
  · rw [if_pos h]
  · rw [if_neg h]
    have h0 : (|((parse (records.getD (i + 1) dRaw).1
        - parse (records.getD (i - 1) dRaw).1 : ℤ) : ℚ)| / 3600) = 0 := by
      refine le_antisymm (not_lt.mp h) ?_
      positivity
    rw [h0, div_zero]

/-- Witness for the amended C1 at the decreasing three-sample sequence. -/
theorem speed_interior_clamped_witness :
    ((fromRawRecords parseC8 recordsC8).getD 1 dRec).speed
      = max ((recordsC8.getD 0 dRaw).2 - (recordsC8.getD 2 dRaw).2) 0
          / (|((parseC8 (recordsC8.getD 2 dRaw).1
              - parseC8 (recordsC8.getD 0 dRaw).1 : ℤ) : ℚ)| / 3600) :=
  speed_interior_clamped parseC8 recordsC8 1 (by decide) (by decide)

/-- C2: the `HealthKind` union declared in `health.ts` has exactly six
members and carries no `TlsError` member, so the kind enumeration of the
stored status type has cardinality 6, not 7. -/
theorem healthKind_enumeration :
    healthKindValues.length = 6 ∧ "TlsError" ∉ healthKindValues ∧
    Fintype.card HealthKind = 6 := by
  refine ⟨rfl, by decide, ?_⟩
  decide

/-- C5: `healthCheck` returns a plain `HealthStatus` for every outcome of
the underlying invocation (it is a total function of the outcome): a
successful probe yields the returned kind with no message, and an error
yields kind `Unknown` carrying the stringified error. -/
theorem healthCheck_never_fails (kind : HealthKind) (error : String) :
    healthCheck (.ok kind) = ⟨kind, none⟩ ∧
    healthCheck (.error error) = ⟨.Unknown, some error⟩ :=
  ⟨rfl, rfl⟩

/-- Witness for C5 at a concrete error outcome. -/
theorem healthCheck_never_fails_witness :
    healthCheck (.error "boom") = ⟨.Unknown, some "boom"⟩ :=
  (healthCheck_never_fails .Ok "boom").2

/-- C3: `performHealthCheck` always stores the probe result; a notification
fires exactly on a kind change to a non-`Ok` kind; the refresh of current
records, archive listing and the open archive fires exactly on a kind
change to `Ok`; a message-only change stores silently.  The probe sequence
`Ok → NoNet → NoNet → Ok` therefore fires exactly one notification (on
entering `NoNet`) followed by the single recovery refresh of the three
dependent views, with no duplicate for the repeated `NoNet`. -/
theorem health_transition_effects :
    (∀ rawStatus status : HealthStatus,
      (performHealthCheck rawStatus status).1 = status ∧
      (((performHealthCheck rawStatus status).2.any Effect.isNotify) = true ↔
        (status.kind ≠ rawStatus.kind ∧ status.kind ≠ .Ok)) ∧
      ((Effect.refreshRecords ∈ (performHealthCheck rawStatus status).2 ∧
        Effect.refreshArchives ∈ (performHealthCheck rawStatus status).2 ∧
        Effect.refreshSelectedArchive ∈ (performHealthCheck rawStatus status).2)
        ↔ (status.kind = .Ok ∧ rawStatus.kind ≠ .Ok)) ∧
      (status.kind = rawStatus.kind →
        (performHealthCheck rawStatus status).2 = [])) ∧
    runProbes initialHealth [⟨.NoNet, none⟩, ⟨.NoNet, none⟩, ⟨.Ok, none⟩]
      = (⟨.Ok, none⟩,
         [.notify "网络已断开" "请检查网络设置。", .refreshRecords,
          .refreshArchives, .refreshSelectedArchive]) := by
  constructor
  · intro rawStatus status
    obtain ⟨k, m⟩ := status
    obtain ⟨k0, m0⟩ := rawStatus
    by_cases hk : k = k0
    · subst hk
      by_cases hm : m = m0
      · subst hm
        simp [performHealthCheck]
      · simp [performHealthCheck, hm]
    · by_cases hOk : k = .Ok
      · subst hOk
        simp [performHealthCheck, hk, Ne.symm hk, Effect.isNotify]
      · simp [performHealthCheck, hk, hOk, Effect.isNotify]
  · decide

/-- Witness for C3: a message-only change fires no side effects. -/
theorem health_transition_effects_witness :
    (performHealthCheck ⟨.NoNet, none⟩ ⟨.NoNet, some "x"⟩).2 = [] :=
  (health_transition_effects.1 ⟨.NoNet, none⟩ ⟨.NoNet, some "x"⟩).2.2.2 rfl

theorem parseLine_isSome_eq (pf : String → ℚ) (line : String) :
    (parseLine pf line).isSome = goodLine line := by
  unfold parseLine goodLine
  set t := (lineFields line).getD 0 "" with ht
  set k := (lineFields line).getD 1 "" with hk
  by_cases h1 : t = "" <;> by_cases h2 : k = "" <;> simp [h1, h2]

theorem length_filterMap_parseLine (pf : String → ℚ) (lines : List String) :
    (lines.filterMap (parseLine pf)).length = lines.countP goodLine := by
  induction lines with
  | nil => rfl
  | cons l ls ih =>
    rw [List.filterMap_cons, List.countP_cons]
    cases hl : parseLine pf l with
    | none =>
      have hg : goodLine l = false := by
        have h := parseLine_isSome_eq pf l
        rw [hl] at h
        simpa using h.symm
      simp [hg, ih]
    | some v =>
      have hg : goodLine l = true := by
        have h := parseLine_isSome_eq pf l
        rw [hl] at h
        simpa using h.symm
      simp [hg, ih]

/-- C10: `parseCsvData` is a total function of the input string; a line
whose first or second comma-separated field is missing or empty is skipped
with no record, a line with both fields non-empty contributes exactly the
record built from those two fields, and the output holds exactly one record
per kept line. -/
theorem parseCsvData_line_handling (parse : String → ℤ) (pf : String → ℚ)
    (csvContent : String) :
    (parseCsvData parse pf csvContent).length
      = (csvLines csvContent).countP goodLine ∧
    ∀ line : String,
      (goodLine line = false → parseLine pf line = none) ∧
      (goodLine line = true →
        parseLine pf line
          = some ((lineFields line).getD 0 "",
              pf ((lineFields line).getD 1 ""))) := by
  constructor
  · rw [parseCsvData, fromRawRecords_length, length_filterMap_parseLine]
  · intro line
    constructor
    · intro h
      have hs := parseLine_isSome_eq pf line
      rw [h] at hs
      exact Option.not_isSome_iff_eq_none.mp (by simp [hs])
    · intro h
      unfold parseLine
      unfold goodLine at h
      set t := (lineFields line).getD 0 "" with ht
      set k := (lineFields line).getD 1 "" with hk
      simp only [Bool.and_eq_true, Bool.not_eq_true', beq_eq_false_iff_ne] at h
      simp [h.1, h.2]

/-- Witness for C10 on the concrete document `"a,1\nb\n,2\nc,3"`: the lines
`"b"` and `",2"` are skipped and exactly two records result. -/
theorem parseCsvData_line_handling_witness :
    (parseCsvData (fun _ => 0) (fun _ => 0) "a,1\nb\n,2\nc,3").length = 2 ∧
    parseLine (fun _ => (0 : ℚ)) "b" = none := by
  have h := parseCsvData_line_handling (fun _ => 0) (fun _ => (0 : ℚ))
    "a,1\nb\n,2\nc,3"
  refine ⟨?_, (h.2 "b").1 (by decide)⟩
  rw [h.1]
  decide

end EcnuPower
